import Mathlib

/-!
Verification of the mock Boomi receiver (src/mock-ion/receiver.py).

The development shallowly embeds the receiver's request pipeline:

* an XML element tree (`Elem`) with ElementTree-style descendant search
  (`find` over the paths used in `COMMON_XPATHS`);
* the order-identifier extraction `extract_order_id` (structural probes in
  priority order, then a left-to-right scan for the
  `\b(ORD|BULK|AUTO)-\d{8}-\d{6}\b` pattern);
* the `do_POST` handler: endpoint routing, `int()` parsing of the
  Content-Length header, the malformed-XML branch, artifact/metadata
  persistence, duplicate decisioning against the process-wide `SEEN_IDS`
  set, and the HTTP response;
* the surrounding HTTP dispatch of the standard library
  (`BaseHTTPRequestHandler`): a request whose method has no `do_<METHOD>`
  handler is answered with a 501 error page.

Bytes are modelled as decoded strings (payloads in this system are text),
the XML parser and the pretty-printer are external library calls and enter
the model as the parse outcome carried by the request and as an arbitrary
function argument respectively.  A handler run is a list of events (file
writes and the response) plus the successor state of `SEEN_IDS`, so that
ordering and side-effect claims are statements about the event trace.
-/

/-- An XML element: tag, optional text, child elements (document order). -/
inductive Elem where
  | mk (tag : String) (text : Option String) (children : List Elem)

def Elem.tag : Elem → String
  | .mk t _ _ => t

def Elem.text : Elem → Option String
  | .mk _ x _ => x

def Elem.children : Elem → List Elem
  | .mk _ _ c => c

mutual
/-- All elements with the given tag in the subtree rooted at `e`,
including `e` itself, in document (preorder) order; this is
ElementTree's `e.iter(tag)`. -/
def iterTag (t : String) : Elem → List Elem
  | .mk tg tx ch => (if tg = t then [Elem.mk tg tx ch] else []) ++ iterTagL t ch

def iterTagL (t : String) : List Elem → List Elem
  | [] => []
  | e :: es => iterTag t e ++ iterTagL t es
end

/-- Children of `e` carrying tag `t`, in order (a `/t` path step). -/
def childTag (e : Elem) (t : String) : List Elem :=
  e.children.filter (fun c => c.tag = t)

/-- All matches of a `.//t0/t1/...` path: strict descendants of `root`
with tag `t0` (document order, per `iter`), then child steps. -/
def findAll (root : Elem) (xp : String × List String) : List Elem :=
  xp.2.foldl (fun acc t => acc.flatMap (fun e => childTag e t)) (iterTagL xp.1 root.children)

/-- ElementTree `root.find(".//t0/t1/...")`: the first match or `none`. -/
def findPath (root : Elem) (xp : String × List String) : Option Elem :=
  (findAll root xp).head?

/-- Whitespace for Python `str.strip()` (the ASCII whitespace class;
payload identifiers in this system are ASCII). -/
def isSpaceChar (c : Char) : Bool :=
  c == ' ' || c == '\t' || c == '\n' || c == '\r' || c == '\x0b' || c == '\x0c'

/-- Python `str.strip()`: drop whitespace from both ends. -/
def pyStrip (s : String) : String :=
  String.mk (((s.data.dropWhile isSpaceChar).reverse.dropWhile isSpaceChar).reverse)

/-- Word characters for the regex word boundary `\b`. -/
def isWordChar (c : Char) : Bool := c.isAlphanum || c == '_'

/-- Consume an exact literal, returning the remaining characters. -/
def matchLit : List Char → List Char → Option (List Char)
  | [], l => some l
  | _ :: _, [] => none
  | p :: ps, c :: cs => if c == p then matchLit ps cs else none

/-- Consume exactly `n` digits (the `\d{n}` quantifier). -/
def takeDigits : Nat → List Char → Option (List Char × List Char)
  | 0, l => some ([], l)
  | _ + 1, [] => none
  | n + 1, c :: cs =>
    if c.isDigit then
      match takeDigits n cs with
      | some (d, r) => some (c :: d, r)
      | none => none
    else none

/-- The trailing `\b` of the pattern: end of text or a non-word character. -/
def endBoundary : List Char → Bool
  | [] => true
  | c :: _ => !(isWordChar c)

/-- Match one alternative of `(ORD|BULK|AUTO)-\d{8}-\d{6}\b` at the head of
`l`, given the literal head `p` (for example `ORD-`). -/
def matchAfter (p : List Char) (l : List Char) : Option String :=
  match matchLit p l with
  | none => none
  | some r1 =>
    match takeDigits 8 r1 with
    | none => none
    | some (d8, r2) =>
      match matchLit ['-'] r2 with
      | none => none
      | some r3 =>
        match takeDigits 6 r3 with
        | none => none
        | some (d6, r4) =>
          if endBoundary r4 then some (String.mk (p ++ d8 ++ '-' :: d6)) else none

/-- Match the pattern body at the head of `l`, trying the alternatives of
the group in the order they appear in the regex. -/
def matchAt (l : List Char) : Option String :=
  match matchAfter "ORD-".data l with
  | some s => some s
  | none =>
    match matchAfter "BULK-".data l with
    | some s => some s
    | none => matchAfter "AUTO-".data l

/-- The leading `\b` of the pattern, in terms of the preceding character
(the first pattern character is always a word character). -/
def boundaryOK : Option Char → Bool
  | none => true
  | some c => !(isWordChar c)

/-- Left-to-right scan: try the pattern at each position, first hit wins;
`prev` is the character before the current position. This is
`ORDER_ID_PAT.search`. -/
def searchFrom (prev : Option Char) : List Char → Option String
  | [] => none
  | c :: cs =>
    match (if boundaryOK prev then matchAt (c :: cs) else none) with
    | some s => some s
    | none => searchFrom (some c) cs

/-- `ORDER_ID_PAT.search(s)` returning `group(0)` of the leftmost match. -/
def patSearch (s : String) : Option String := searchFrom none s.data

/-- The `COMMON_XPATHS` list of `extract_order_id`, each path split into
its descendant step and subsequent child steps. -/
def COMMON_XPATHS : List (String × List String) :=
  [("OrderID", []), ("OrderId", []), ("OrderNumber", []), ("Order", ["ID"]),
   ("ID", []), ("DocumentID", []), ("SalesOrder", ["OrderID"]),
   ("Header", ["OrderID"]), ("OrderHeader", ["OrderID"])]

/-- One loop iteration of `extract_order_id`: find the path's first match
and accept its text when present and non-blank after stripping
(`node is not None and node.text and node.text.strip()`). -/
def probeOne (root : Elem) (xp : String × List String) : Option String :=
  match findPath root xp with
  | none => none
  | some node =>
    match node.text with
    | none => none
    | some s => if pyStrip s = "" then none else some (pyStrip s)

/-- The probe loop over `COMMON_XPATHS`: first successful probe wins. -/
def probeLoop (root : Elem) : List (String × List String) → Option String
  | [] => none
  | xp :: xps =>
    match probeOne root xp with
    | some v => some v
    | none => probeLoop root xps

/-- `extract_order_id(root, raw_text)`: structural probes in priority
order, else the regex fallback over the whole raw decoded text. -/
def extract_order_id (root : Elem) (raw_text : String) : Option String :=
  match probeLoop root COMMON_XPATHS with
  | some v => some v
  | none => patSearch raw_text

/-- Digit run of a Python integer literal after the first digit: single
underscores are allowed between digits only. -/
def pyDigitsAux : List Char → Bool
  | [] => true
  | '_' :: rest =>
    match rest with
    | [] => false
    | c :: cs => c.isDigit && pyDigitsAux cs
  | c :: cs => c.isDigit && pyDigitsAux cs

/-- Nonempty digit run (underscore-separated) for Python `int()`. -/
def pyDigitsNE : List Char → Bool
  | [] => false
  | c :: cs => c.isDigit && pyDigitsAux cs

/-- Numeric value of a digit run, skipping underscores. -/
def pyVal (acc : Nat) : List Char → Nat
  | [] => acc
  | '_' :: cs => pyVal acc cs
  | c :: cs => pyVal (acc * 10 + (c.toNat - '0'.toNat)) cs

/-- Python `int()` on the stripped character list: optional sign, then a
digit run; anything else raises `ValueError` (`none` here). -/
def pyIntCore : List Char → Option Int
  | '+' :: rest => if pyDigitsNE rest then some (pyVal 0 rest) else none
  | '-' :: rest => if pyDigitsNE rest then some (-(pyVal 0 rest : Int)) else none
  | l => if pyDigitsNE l then some (pyVal 0 l) else none

/-- Python `int(s)` for a string argument: strip surrounding whitespace,
then parse; `none` models the `ValueError` raise. -/
def pyInt (s : String) : Option Int := pyIntCore (pyStrip s).data

/-- The configured endpoint path of the receiver. -/
def ENDPOINT : String := "/boomi/orders"

/-- Outcome of the external call `ET.fromstring(raw)`: either a parse
failure with the parser's message `str(e)`, or the root element. -/
inductive ParseOutcome where
  | failure (msg : String)
  | success (root : Elem)

/-- The body of a POST request: the raw payload (as decoded text) together
with the outcome of parsing it as XML. -/
structure PostBody where
  raw : String
  parsed : ParseOutcome

/-- An inbound HTTP request as the handler sees it: method, path, header
snapshot, body, and the request-scoped timestamp and client address. -/
structure Request where
  method : String
  path : String
  headers : List (String × String)
  body : PostBody
  ts : String
  client : String

/-- An HTTP response: status code and, when the handler serialises a JSON
object (`_write`), its fields in order; `none` stands for the non-JSON
error page that the base class emits. -/
structure HttpResponse where
  code : Nat
  jsonBody : Option (List (String × String))
deriving DecidableEq

/-- A metadata value: the JSON values appearing in the receiver's
metadata dictionaries. -/
inductive MVal where
  | str (s : String)
  | nat (n : Nat)
  | hdrs (h : List (String × String))
deriving DecidableEq

/-- Content of a persisted file: document text (raw or pretty-printed),
or a metadata dictionary. -/
inductive FileContent where
  | textDoc (s : String)
  | meta (m : List (String × MVal))
deriving DecidableEq

/-- Observable actions of one request: inbox file writes and the single
HTTP response, in program order. -/
inductive Event where
  | write (name : String) (content : FileContent)
  | respond (r : HttpResponse)
deriving DecidableEq

/-- An exception escaping the handler (the `ValueError` from `int()`). -/
inductive PyError where
  | valueError
deriving DecidableEq

/-- ASCII lower-casing of one character. -/
def lowerChar (c : Char) : Char :=
  if 'A' ≤ c ∧ c ≤ 'Z' then Char.ofNat (c.toNat + 32) else c

/-- ASCII lower-casing of a header name. -/
def lowerStr (s : String) : String := String.mk (s.data.map lowerChar)

/-- Case-insensitive header lookup, as `email.message.Message.get`. -/
def headerGet (hs : List (String × String)) (k : String) : Option String :=
  (hs.find? (fun p => lowerStr p.1 == lowerStr k)).map (fun p => p.2)

/-- `self.headers.get("Content-Length", "0")`. -/
def clHeader (r : Request) : String :=
  (headerGet r.headers "Content-Length").getD "0"

/-- Response of the accepted branch: `200 {"status": "ok", "order_id": id}`. -/
def okResp (id : String) : HttpResponse :=
  ⟨200, some [("status", "ok"), ("order_id", id)]⟩

/-- Response of the duplicate branch: `409 {"status": "duplicate", ...}`. -/
def dupResp (id : String) : HttpResponse :=
  ⟨409, some [("status", "duplicate"), ("order_id", id)]⟩

/-- Response for a POST outside the endpoint: `404 {"error": ...}`. -/
def notFoundResp (p : String) : HttpResponse :=
  ⟨404, some [("error", "Not found: " ++ p)]⟩

/-- Response of the malformed-XML branch. -/
def malformedResp (detail : String) : HttpResponse :=
  ⟨400, some [("status", "error"), ("reason", "malformed_xml"), ("detail", detail)]⟩

/-- The base class `send_error(501, ...)` reply for a method without a
`do_<METHOD>` handler: an HTML error page, no JSON body. -/
def unsupportedResp : HttpResponse := ⟨501, none⟩

/-- Metadata written on the malformed branch (no order id field). -/
def malformedMeta (r : Request) : List (String × MVal) :=
  [("timestamp", .str r.ts), ("client", .str r.client), ("status", .nat 400),
   ("reason", .str "malformed_xml"), ("headers", .hdrs r.headers)]

/-- Metadata written for a well-formed submission. -/
def acceptMeta (r : Request) (status : Nat) (oid : String) : List (String × MVal) :=
  [("timestamp", .str r.ts), ("client", .str r.client), ("status", .nat status),
   ("order_id", .str oid), ("headers", .hdrs r.headers),
   ("bytes", .nat r.body.raw.length), ("endpoint", .str ENDPOINT)]

/-- Python `set.add` on the membership-list model of `SEEN_IDS`. -/
def setAdd (s : List String) (x : String) : List String :=
  if x ∈ s then s else s ++ [x]

/-- `BoomiHandler.do_POST`: routing, Content-Length parse, XML branch,
persistence, duplicate decision, response.  Returns the event trace and
the successor `SEEN_IDS`, or the exception escaping the handler. -/
def do_POST (pp : String → String) (seen : List String) (r : Request) :
    Except PyError (List Event × List String) :=
  if r.path ≠ ENDPOINT then
    .ok ([.respond (notFoundResp r.path)], seen)
  else
    match pyInt (clHeader r) with
    | none => .error .valueError
    | some _ =>
      match r.body.parsed with
      | .failure msg =>
        .ok ([.write (r.ts ++ "_malformed.xml") (.textDoc r.body.raw),
              .write (r.ts ++ "_malformed.meta.json") (.meta (malformedMeta r)),
              .respond (malformedResp msg)], seen)
      | .success root =>
        let order_id := (extract_order_id root r.body.raw).getD "UNKNOWN"
        let status := if order_id ∈ seen then 409 else 200
        let events := [
          Event.write (r.ts ++ "_" ++ order_id ++ ".xml") (.textDoc (pp r.body.raw)),
          Event.write (r.ts ++ "_" ++ order_id ++ ".meta.json")
            (.meta (acceptMeta r status order_id)),
          Event.respond (if order_id ∈ seen ∧ order_id ≠ "UNKNOWN"
            then dupResp order_id else okResp order_id)]
        let seen' := if order_id ∈ seen ∧ order_id ≠ "UNKNOWN" then seen
          else if order_id ≠ "UNKNOWN" then setAdd seen order_id else seen
        .ok (events, seen')

/-- One full request through the server: the base class dispatches to
`do_POST` for POST and answers 501 itself for any other method. -/
def handleRequest (pp : String → String) (seen : List String) (r : Request) :
    Except PyError (List Event × List String) :=
  if r.method = "POST" then do_POST pp seen r
  else .ok ([.respond unsupportedResp], seen)

/-- Serve a sequence of requests: per-request outcomes plus the final
`SEEN_IDS` (an escaped exception leaves the state untouched and the
server keeps serving). -/
def runAll (pp : String → String) : List Request → List String →
    List (Except PyError (List Event)) × List String
  | [], seen => ([], seen)
  | r :: rs, seen =>
    match handleRequest pp seen r with
    | .error e =>
      let out := runAll pp rs seen
      (.error e :: out.1, out.2)
    | .ok (tr, s1) =>
      let out := runAll pp rs s1
      (.ok tr :: out.1, out.2)

/-- The response event of a trace, if any. -/
def respOf : List Event → Option HttpResponse
  | [] => none
  | .respond r :: _ => some r
  | .write _ _ :: es => respOf es

/-- The HTTP response the `k`-th request of a run receives (`none` when
the handler raised instead of responding). -/
def outResp (pp : String → String) (reqs : List Request) (seen : List String)
    (k : Nat) : Option HttpResponse :=
  match (runAll pp reqs seen).1[k]? with
  | some (.ok tr) => respOf tr
  | _ => none

/-- A valid well-formed submission: a POST to the endpoint whose
Content-Length value parses and whose body parses as XML. -/
def goodReq (r : Request) : Prop :=
  r.method = "POST" ∧ r.path = ENDPOINT ∧ (pyInt (clHeader r)).isSome = true ∧
    ∃ root, r.body.parsed = ParseOutcome.success root

/-- The identifier extraction applied to a request's body (before the
`UNKNOWN` default). -/
def extractOf (r : Request) : Option String :=
  match r.body.parsed with
  | .success root => extract_order_id root r.body.raw
  | .failure _ => none

/-- The order identifier of a request after the `UNKNOWN` default. -/
def docId (r : Request) : String := (extractOf r).getD "UNKNOWN"

/-- The response a well-formed submission with identifier `x` receives
against dedup state `seen`. -/
def stepResp (seen : List String) (x : String) : HttpResponse :=
  if x ∈ seen ∧ x ≠ "UNKNOWN" then dupResp x else okResp x

/-- The successor dedup state after a well-formed submission with
identifier `x`. -/
def stepSeen (seen : List String) (x : String) : List String :=
  if x ∈ seen ∧ x ≠ "UNKNOWN" then seen
  else if x ≠ "UNKNOWN" then setAdd seen x else seen

/-- The trace of the malformed branch of `do_POST`. -/
def malformedTrace (r : Request) (msg : String) : List Event :=
  [.write (r.ts ++ "_malformed.xml") (.textDoc r.body.raw),
   .write (r.ts ++ "_malformed.meta.json") (.meta (malformedMeta r)),
   .respond (malformedResp msg)]

/-- The trace of the well-formed branch of `do_POST`. -/
def acceptTrace (pp : String → String) (seen : List String) (r : Request) : List Event :=
  [.write (r.ts ++ "_" ++ docId r ++ ".xml") (.textDoc (pp r.body.raw)),
   .write (r.ts ++ "_" ++ docId r ++ ".meta.json")
     (.meta (acceptMeta r (if docId r ∈ seen then 409 else 200) (docId r))),
   .respond (stepResp seen (docId r))]

/-- Word-boundary condition of the pattern at position `i` of `cs`, with
`prev` the character preceding `cs` (if any). -/
def bcond (prev : Option Char) (cs : List Char) : Nat → Bool
  | 0 => boundaryOK prev
  | j + 1 =>
    match cs[j]? with
    | some c => !(isWordChar c)
    | none => true

/-- The regex matches at position `i` of the full text `cs`. -/
def matchesAt (cs : List Char) (i : Nat) : Bool :=
  bcond none cs i && (matchAt (cs.drop i)).isSome

theorem matchAt_nil : matchAt ([] : List Char) = none := by rfl

theorem bcond_shift (prev : Option Char) (c : Char) (cs : List Char) (j : Nat) :
    bcond prev (c :: cs) (j + 1) = bcond (some c) cs j := by
  cases j with
  | zero => simp [bcond, boundaryOK]
  | succ j => simp [bcond]

/-- Soundness of the scan: a hit of `searchFrom` is a boundary-correct
match at some position all of whose earlier positions fail. -/
theorem searchFrom_some (cs : List Char) : ∀ (prev : Option Char) (s : String),
    searchFrom prev cs = some s →
    ∃ i, bcond prev cs i = true ∧ matchAt (cs.drop i) = some s ∧
      ∀ j < i, (bcond prev cs j && (matchAt (cs.drop j)).isSome) = false := by
  induction cs with
  | nil => intro prev s h; simp [searchFrom] at h
  | cons c cs ih =>
    intro prev s h
    simp only [searchFrom] at h
    rcases hH : (if boundaryOK prev then matchAt (c :: cs) else none) with _ | s0
    · rw [hH] at h
      obtain ⟨i, h1, h2, h3⟩ := ih (some c) s h
      refine ⟨i + 1, by rwa [bcond_shift], by simpa using h2, ?_⟩
      intro j hj
      match j with
      | 0 =>
        by_cases hb : boundaryOK prev = true
        · rw [if_pos hb] at hH
          simp [bcond, hH]
        · simp [bcond, hb]
      | j + 1 =>
        rw [bcond_shift, List.drop_succ_cons]
        exact h3 j (by omega)
    · rw [hH] at h
      have hs : s0 = s := by simpa using h
      subst hs
      have hb : boundaryOK prev = true := by
        by_contra hb
        rw [if_neg hb] at hH
        exact Option.noConfusion hH
      rw [if_pos hb] at hH
      exact ⟨0, by simpa [bcond] using hb, by simpa using hH, fun j hj => by omega⟩

/-- Completeness of the scan: if `searchFrom` misses, no position
matches with a correct boundary. -/
theorem searchFrom_none (cs : List Char) : ∀ (prev : Option Char),
    searchFrom prev cs = none →
    ∀ i, (bcond prev cs i && (matchAt (cs.drop i)).isSome) = false := by
  induction cs with
  | nil => intro prev _ i; simp [matchAt_nil]
  | cons c cs ih =>
    intro prev h i
    simp only [searchFrom] at h
    rcases hH : (if boundaryOK prev then matchAt (c :: cs) else none) with _ | s0
    · rw [hH] at h
      match i with
      | 0 =>
        by_cases hb : boundaryOK prev = true
        · rw [if_pos hb] at hH
          simp [bcond, hH]
        · simp [bcond, hb]
      | i + 1 =>
        rw [bcond_shift, List.drop_succ_cons]
        exact ih (some c) h i
    · rw [hH] at h
      exact Option.noConfusion h

/-- The probe loop returns the first successful probe. -/
theorem probeLoop_first (root : Elem) :
    ∀ (l : List (String × List String)) (i : Nat) (xp : String × List String) (v : String),
      l[i]? = some xp → probeOne root xp = some v →
      (∀ j xq, j < i → l[j]? = some xq → probeOne root xq = none) →
      probeLoop root l = some v := by
  intro l
  induction l with
  | nil => intro i xp v h; simp at h
  | cons p ps ih =>
    intro i xp v hi hv hprev
    match i with
    | 0 =>
      simp only [List.getElem?_cons_zero, Option.some.injEq] at hi
      subst hi
      simp [probeLoop, hv]
    | i + 1 =>
      have hp0 : probeOne root p = none := hprev 0 p (by omega) (by simp)
      simp only [probeLoop, hp0]
      exact ih i xp v (by simpa using hi) hv
        (fun j xq hj hx => hprev (j + 1) xq (by omega) (by simpa using hx))

/-- The probe loop misses when every probe misses. -/
theorem probeLoop_none (root : Elem) :
    ∀ (l : List (String × List String)), (∀ xp ∈ l, probeOne root xp = none) →
      probeLoop root l = none := by
  intro l
  induction l with
  | nil => intro _; rfl
  | cons p ps ih =>
    intro h
    have hp : probeOne root p = none := h p (by simp)
    simp only [probeLoop, hp]
    exact ih (fun xp hxp => h xp (by simp [hxp]))

theorem respOf_malformedTrace (r : Request) (msg : String) :
    respOf (malformedTrace r msg) = some (malformedResp msg) := by
  simp [malformedTrace, respOf]

theorem respOf_acceptTrace (pp : String → String) (seen : List String) (r : Request) :
    respOf (acceptTrace pp seen r) = some (stepResp seen (docId r)) := by
  simp [acceptTrace, respOf]

/-- The well-formed branch of the handler, as one equation: a good
request produces the accept trace and the stepped dedup state. -/
theorem handle_good (pp : String → String) (seen : List String) (r : Request)
    (h : goodReq r) :
    handleRequest pp seen r = .ok (acceptTrace pp seen r, stepSeen seen (docId r)) := by
  obtain ⟨hm, hp, hcl, root, hroot⟩ := h
  obtain ⟨v, hv⟩ := Option.isSome_iff_exists.mp hcl
  simp only [handleRequest, if_pos hm, do_POST, hp, ite_not, hv, hroot]
  simp only [acceptTrace, stepSeen, stepResp, docId, extractOf, hroot]
  simp [ite_not]

/-- Exhaustive case analysis of one request through the server. -/
theorem handle_char (pp : String → String) (seen : List String) (r : Request) :
    (r.method ≠ "POST" ∧ handleRequest pp seen r = .ok ([.respond unsupportedResp], seen)) ∨
    (r.method = "POST" ∧ r.path ≠ ENDPOINT ∧
      handleRequest pp seen r = .ok ([.respond (notFoundResp r.path)], seen)) ∨
    (r.method = "POST" ∧ r.path = ENDPOINT ∧ pyInt (clHeader r) = none ∧
      handleRequest pp seen r = .error .valueError) ∨
    (∃ msg, r.method = "POST" ∧ r.path = ENDPOINT ∧ (pyInt (clHeader r)).isSome = true ∧
      r.body.parsed = ParseOutcome.failure msg ∧
      handleRequest pp seen r = .ok (malformedTrace r msg, seen)) ∨
    (goodReq r ∧
      handleRequest pp seen r = .ok (acceptTrace pp seen r, stepSeen seen (docId r))) := by
  by_cases hm : r.method = "POST"
  · by_cases hp : r.path = ENDPOINT
    · cases hv : pyInt (clHeader r) with
      | none =>
        refine Or.inr (Or.inr (Or.inl ⟨hm, hp, rfl, ?_⟩))
        simp [handleRequest, if_pos hm, do_POST, hp, hv]
      | some v =>
        cases hps : r.body.parsed with
        | failure msg =>
          refine Or.inr (Or.inr (Or.inr (Or.inl ⟨msg, hm, hp, by simp [hv], rfl, ?_⟩)))
          simp [handleRequest, if_pos hm, do_POST, hp, hv, hps, malformedTrace]
        | success root =>
          refine Or.inr (Or.inr (Or.inr (Or.inr ⟨⟨hm, hp, by simp [hv], root, hps⟩, ?_⟩)))
          exact handle_good pp seen r ⟨hm, hp, by simp [hv], root, hps⟩
    · refine Or.inr (Or.inl ⟨hm, hp, ?_⟩)
      simp [handleRequest, if_pos hm, do_POST, hp]
  · exact Or.inl ⟨hm, by simp [handleRequest, hm]⟩

theorem runAll_cons_error (pp : String → String) (r : Request) (rs : List Request)
    (seen : List String) (e : PyError) (h : handleRequest pp seen r = .error e) :
    runAll pp (r :: rs) seen =
      (.error e :: (runAll pp rs seen).1, (runAll pp rs seen).2) := by
  simp [runAll, h]

theorem runAll_cons_ok (pp : String → String) (r : Request) (rs : List Request)
    (seen : List String) (tr : List Event) (s1 : List String)
    (h : handleRequest pp seen r = .ok (tr, s1)) :
    runAll pp (r :: rs) seen =
      (.ok tr :: (runAll pp rs s1).1, (runAll pp rs s1).2) := by
  simp [runAll, h]

theorem outResp_zero_ok (pp : String → String) (r : Request) (rs : List Request)
    (seen : List String) (tr : List Event) (s1 : List String)
    (h : handleRequest pp seen r = .ok (tr, s1)) :
    outResp pp (r :: rs) seen 0 = respOf tr := by
  simp [outResp, runAll_cons_ok pp r rs seen tr s1 h]

theorem outResp_succ_ok (pp : String → String) (r : Request) (rs : List Request)
    (seen : List String) (tr : List Event) (s1 : List String) (k : Nat)
    (h : handleRequest pp seen r = .ok (tr, s1)) :
    outResp pp (r :: rs) seen (k + 1) = outResp pp rs s1 k := by
  simp [outResp, runAll_cons_ok pp r rs seen tr s1 h]

theorem outResp_zero_error (pp : String → String) (r : Request) (rs : List Request)
    (seen : List String) (e : PyError) (h : handleRequest pp seen r = .error e) :
    outResp pp (r :: rs) seen 0 = none := by
  simp [outResp, runAll_cons_error pp r rs seen e h]

theorem outResp_succ_error (pp : String → String) (r : Request) (rs : List Request)
    (seen : List String) (e : PyError) (k : Nat)
    (h : handleRequest pp seen r = .error e) :
    outResp pp (r :: rs) seen (k + 1) = outResp pp rs seen k := by
  simp [outResp, runAll_cons_error pp r rs seen e h]

/-- Membership in the stepped dedup state. -/
theorem mem_stepSeen (seen : List String) (x y : String) :
    y ∈ stepSeen seen x ↔ y ∈ seen ∨ (y = x ∧ x ≠ "UNKNOWN") := by
  unfold stepSeen setAdd
  by_cases h1 : x ∈ seen ∧ x ≠ "UNKNOWN"
  · rw [if_pos h1]
    constructor
    · exact Or.inl
    · rintro (hy | ⟨rfl, _⟩)
      · exact hy
      · exact h1.1
  · rw [if_neg h1]
    by_cases h2 : x ≠ "UNKNOWN"
    · rw [if_pos h2]
      have hx : x ∉ seen := fun hc => h1 ⟨hc, h2⟩
      rw [if_neg hx]
      simp only [List.mem_append, List.mem_singleton]
      constructor
      · rintro (hy | rfl)
        · exact Or.inl hy
        · exact Or.inr ⟨rfl, h2⟩
      · rintro (hy | ⟨rfl, _⟩)
        · exact Or.inl hy
        · exact Or.inr rfl
    · rw [if_neg h2]
      simp only [ne_eq, not_not] at h2
      constructor
      · exact Or.inl
      · rintro (hy | ⟨rfl, hne⟩)
        · exact hy
        · exact absurd h2 hne

/-- The dedup states along a run of good requests, folded. -/
def foldSeen (seen : List String) (l : List Request) : List String :=
  l.foldl (fun s r => stepSeen s (docId r)) seen

/-- Membership in a folded dedup state. -/
theorem mem_foldSeen (l : List Request) : ∀ (seen : List String) (y : String),
    y ∈ foldSeen seen l ↔ y ∈ seen ∨ (y ≠ "UNKNOWN" ∧ y ∈ l.map docId) := by
  induction l with
  | nil => intro seen y; simp [foldSeen]
  | cons r rs ih =>
    intro seen y
    have hstep : foldSeen seen (r :: rs) = foldSeen (stepSeen seen (docId r)) rs := by
      simp [foldSeen]
    rw [hstep, ih, mem_stepSeen]
    simp only [List.map_cons, List.mem_cons]
    constructor
    · rintro ((hy | ⟨rfl, hne⟩) | ⟨hne, hmem⟩)
      · exact Or.inl hy
      · exact Or.inr ⟨hne, Or.inl rfl⟩
      · exact Or.inr ⟨hne, Or.inr hmem⟩
    · rintro (hy | ⟨hne, rfl | hmem⟩)
      · exact Or.inl (Or.inl hy)
      · exact Or.inl (Or.inr ⟨rfl, hne⟩)
      · exact Or.inr ⟨hne, hmem⟩

/-- A handled request never removes identifiers from the dedup state. -/
theorem step_mono (pp : String → String) (seen : List String) (r : Request)
    (tr : List Event) (s1 : List String)
    (hE : handleRequest pp seen r = .ok (tr, s1)) (y : String) (hy : y ∈ seen) :
    y ∈ s1 := by
  rcases handle_char pp seen r with ⟨_, h⟩ | ⟨_, _, h⟩ | ⟨_, _, _, h⟩ |
    ⟨msg, _, _, _, _, h⟩ | ⟨_, h⟩ <;> rw [h] at hE
  · obtain ⟨-, rfl⟩ : tr = _ ∧ s1 = seen := by simpa using hE.symm
    exact hy
  · obtain ⟨-, rfl⟩ : tr = _ ∧ s1 = seen := by simpa using hE.symm
    exact hy
  · exact absurd hE (by simp)
  · obtain ⟨-, rfl⟩ : tr = _ ∧ s1 = seen := by simpa using hE.symm
    exact hy
  · obtain ⟨-, rfl⟩ : tr = _ ∧ s1 = stepSeen seen (docId r) := by simpa using hE.symm
    exact (mem_stepSeen seen (docId r) y).mpr (Or.inl hy)

/-- What one handled request does to membership: an identifier is in the
successor state iff it was already there or this very request was
answered `200 ok` with that identifier. -/
theorem step_mem (pp : String → String) (seen : List String) (r : Request)
    (tr : List Event) (s1 : List String)
    (hE : handleRequest pp seen r = .ok (tr, s1)) (y : String) :
    y ∈ s1 ↔ y ∈ seen ∨ (y ≠ "UNKNOWN" ∧ respOf tr = some (okResp y)) := by
  rcases handle_char pp seen r with ⟨_, h⟩ | ⟨_, _, h⟩ | ⟨_, _, _, h⟩ |
    ⟨msg, _, _, _, _, h⟩ | ⟨_, h⟩ <;> rw [h] at hE
  · obtain ⟨rfl, rfl⟩ : tr = _ ∧ s1 = seen := by simpa using hE.symm
    simp [respOf, unsupportedResp, okResp]
  · obtain ⟨rfl, rfl⟩ : tr = _ ∧ s1 = seen := by simpa using hE.symm
    simp [respOf, notFoundResp, okResp]
  · exact absurd hE (by simp)
  · obtain ⟨rfl, rfl⟩ : tr = _ ∧ s1 = seen := by simpa using hE.symm
    simp [respOf_malformedTrace, malformedResp, okResp]
  · obtain ⟨rfl, rfl⟩ : tr = _ ∧ s1 = stepSeen seen (docId r) := by simpa using hE.symm
    rw [mem_stepSeen, respOf_acceptTrace]
    unfold stepResp
    by_cases hd : docId r ∈ seen ∧ docId r ≠ "UNKNOWN"
    · rw [if_pos hd]
      simp only [Option.some.injEq, dupResp, okResp, HttpResponse.mk.injEq]
      constructor
      · rintro (hy | ⟨rfl, _⟩)
        · exact Or.inl hy
        · exact Or.inl hd.1
      · rintro (hy | ⟨_, h409, _⟩)
        · exact Or.inl hy
        · exact absurd h409 (by norm_num)
    · rw [if_neg hd]
      constructor
      · rintro (hy | ⟨rfl, hne⟩)
        · exact Or.inl hy
        · exact Or.inr ⟨hne, rfl⟩
      · rintro (hy | ⟨hne, hb⟩)
        · exact Or.inl hy
        · have hdy : docId r = y := by simpa [okResp] using hb
          exact Or.inr ⟨hdy.symm, hdy ▸ hne⟩

/-- Monotonicity of the dedup state over a whole run. -/
theorem runAll_mono (pp : String → String) :
    ∀ (reqs : List Request) (seen : List String) (y : String),
      y ∈ seen → y ∈ (runAll pp reqs seen).2 := by
  intro reqs
  induction reqs with
  | nil => intro seen y hy; simpa [runAll] using hy
  | cons r rs ih =>
    intro seen y hy
    rcases hE : handleRequest pp seen r with e | ⟨tr, s1⟩
    · rw [runAll_cons_error pp r rs seen e hE]
      exact ih seen y hy
    · rw [runAll_cons_ok pp r rs seen tr s1 hE]
      exact ih s1 y (step_mono pp seen r tr s1 hE y hy)

/-- Membership in the final dedup state of a run: exactly the non-sentinel
identifiers some request of the run was answered `200 ok` with. -/
theorem runAll_mem (pp : String → String) :
    ∀ (reqs : List Request) (seen : List String) (y : String),
      y ∈ (runAll pp reqs seen).2 ↔
        y ∈ seen ∨ (y ≠ "UNKNOWN" ∧ ∃ k, outResp pp reqs seen k = some (okResp y)) := by
  intro reqs
  induction reqs with
  | nil =>
    intro seen y
    simp [runAll, outResp]
  | cons r rs ih =>
    intro seen y
    rcases hE : handleRequest pp seen r with e | ⟨tr, s1⟩
    · rw [runAll_cons_error pp r rs seen e hE, ih seen y]
      constructor
      · rintro (hy | ⟨hne, k, hk⟩)
        · exact Or.inl hy
        · exact Or.inr ⟨hne, k + 1, by rw [outResp_succ_error pp r rs seen e k hE]; exact hk⟩
      · rintro (hy | ⟨hne, k, hk⟩)
        · exact Or.inl hy
        · match k with
          | 0 => rw [outResp_zero_error pp r rs seen e hE] at hk; exact absurd hk (by simp)
          | k + 1 =>
            rw [outResp_succ_error pp r rs seen e k hE] at hk
            exact Or.inr ⟨hne, k, hk⟩
    · rw [runAll_cons_ok pp r rs seen tr s1 hE, ih s1 y]
      rw [step_mem pp seen r tr s1 hE y]
      constructor
      · rintro ((hy | ⟨hne, hr⟩) | ⟨hne, k, hk⟩)
        · exact Or.inl hy
        · exact Or.inr ⟨hne, 0, by rw [outResp_zero_ok pp r rs seen tr s1 hE]; exact hr⟩
        · exact Or.inr ⟨hne, k + 1, by rw [outResp_succ_ok pp r rs seen tr s1 k hE]; exact hk⟩
      · rintro (hy | ⟨hne, k, hk⟩)
        · exact Or.inl (Or.inl hy)
        · match k with
          | 0 =>
            rw [outResp_zero_ok pp r rs seen tr s1 hE] at hk
            exact Or.inl (Or.inr ⟨hne, hk⟩)
          | k + 1 =>
            rw [outResp_succ_ok pp r rs seen tr s1 k hE] at hk
            exact Or.inr ⟨hne, k, hk⟩

/-- Over a run of good requests, the `k`-th response is determined by the
`k`-th identifier and the dedup state folded over the earlier ones. -/
theorem runAll_resp_good (pp : String → String) :
    ∀ (reqs : List Request), (∀ r ∈ reqs, goodReq r) →
      ∀ (seen : List String) (k : Nat) (r : Request), reqs[k]? = some r →
        outResp pp reqs seen k =
          some (stepResp (foldSeen seen (reqs.take k)) (docId r)) := by
  intro reqs
  induction reqs with
  | nil => intro _ seen k r hk; simp at hk
  | cons q qs ih =>
    intro hall seen k r hk
    have hq : goodReq q := hall q (by simp)
    have hE := handle_good pp seen q hq
    match k with
    | 0 =>
      simp only [List.getElem?_cons_zero, Option.some.injEq] at hk
      subst hk
      rw [outResp_zero_ok pp q qs seen _ _ hE, respOf_acceptTrace]
      simp [foldSeen]
    | k + 1 =>
      rw [outResp_succ_ok pp q qs seen _ _ k hE]
      rw [ih (fun r hr => hall r (by simp [hr])) (stepSeen seen (docId q)) k r (by simpa using hk)]
      have : foldSeen seen ((q :: qs).take (k + 1)) =
          foldSeen (stepSeen seen (docId q)) (qs.take k) := by
        simp [foldSeen]
      rw [this]

/-- A `200 ok` response with identifier `y` can only come from a request
whose extracted identifier is `y`. -/
theorem outResp_ok_source (pp : String → String) :
    ∀ (reqs : List Request) (seen : List String) (k : Nat) (y : String),
      outResp pp reqs seen k = some (okResp y) →
      ∃ r, reqs[k]? = some r ∧ docId r = y := by
  intro reqs
  induction reqs with
  | nil => intro seen k y h; simp [outResp, runAll] at h
  | cons q qs ih =>
    intro seen k y h
    rcases hE : handleRequest pp seen q with e | ⟨tr, s1⟩
    · match k with
      | 0 => rw [outResp_zero_error pp q qs seen e hE] at h; exact absurd h (by simp)
      | k + 1 =>
        rw [outResp_succ_error pp q qs seen e k hE] at h
        obtain ⟨r, hr, hd⟩ := ih seen k y h
        exact ⟨r, by simpa using hr, hd⟩
    · match k with
      | 0 =>
        rw [outResp_zero_ok pp q qs seen tr s1 hE] at h
        refine ⟨q, by simp, ?_⟩
        rcases handle_char pp seen q with ⟨_, hc⟩ | ⟨_, _, hc⟩ | ⟨_, _, _, hc⟩ |
          ⟨msg, _, _, _, _, hc⟩ | ⟨_, hc⟩ <;> rw [hc] at hE
        · obtain ⟨rfl, -⟩ : tr = _ ∧ s1 = seen := by simpa using hE.symm
          exact absurd h (by simp [respOf, unsupportedResp, okResp])
        · obtain ⟨rfl, -⟩ : tr = _ ∧ s1 = seen := by simpa using hE.symm
          exact absurd h (by simp [respOf, notFoundResp, okResp])
        · exact absurd hE (by simp)
        · obtain ⟨rfl, -⟩ : tr = _ ∧ s1 = seen := by simpa using hE.symm
          rw [respOf_malformedTrace] at h
          exact absurd h (by simp [malformedResp, okResp])
        · obtain ⟨rfl, -⟩ : tr = _ ∧ s1 = stepSeen seen (docId q) := by simpa using hE.symm
          rw [respOf_acceptTrace] at h
          unfold stepResp at h
          by_cases hd : docId q ∈ seen ∧ docId q ≠ "UNKNOWN"
          · rw [if_pos hd] at h
            exact absurd h (by simp [dupResp, okResp])
          · rw [if_neg hd] at h
            simpa [okResp] using h
      | k + 1 =>
        rw [outResp_succ_ok pp q qs seen tr s1 k hE] at h
        obtain ⟨r, hr, hd⟩ := ih s1 k y h
        exact ⟨r, by simpa using hr, hd⟩

/-- C1: over any run of well-formed submissions started from the empty
dedup state, the `k`-th submission is answered `200 {"status": "ok",
"order_id": x}` when its identifier `x` occurs for the first time (or is
the sentinel `UNKNOWN`), and `409 {"status": "duplicate", "order_id": x}`
whenever the same non-`UNKNOWN` `x` occurred before, whatever identifiers
the interleaved submissions carry. -/
theorem dedup_correct (pp : String → String) (reqs : List Request)
    (h : ∀ r ∈ reqs, goodReq r) (k : Nat) (r : Request) (hk : reqs[k]? = some r) :
    outResp pp reqs [] k =
      some (if docId r = "UNKNOWN" ∨ docId r ∉ (reqs.take k).map docId
        then okResp (docId r) else dupResp (docId r)) := by
  rw [runAll_resp_good pp reqs h [] k r hk]
  congr 1
  unfold stepResp
  by_cases hC : docId r ∈ foldSeen [] (reqs.take k) ∧ docId r ≠ "UNKNOWN"
  · rw [if_pos hC, if_neg]
    push_neg
    rcases (mem_foldSeen (reqs.take k) [] (docId r)).mp hC.1 with h0 | ⟨hne, hmem⟩
    · exact absurd h0 (by simp)
    · exact ⟨hC.2, hmem⟩
  · rw [if_neg hC, if_pos]
    by_cases hU : docId r = "UNKNOWN"
    · exact Or.inl hU
    · exact Or.inr (fun hmem =>
        hC ⟨(mem_foldSeen (reqs.take k) [] (docId r)).mpr (Or.inr ⟨hU, hmem⟩), hU⟩)

/-- A first submission carrying `ORD-20250101-120000`. -/
def reqA : Request :=
  { method := "POST", path := "/boomi/orders",
    headers := [("Content-Length", "64"), ("Content-Type", "application/xml")],
    body := PostBody.mk "<Order><OrderID>ORD-20250101-120000</OrderID></Order>"
      (.success (Elem.mk "Order" none [Elem.mk "OrderID" (some "ORD-20250101-120000") []])),
    ts := "20250101-120000", client := "127.0.0.1" }

/-- A second submission carrying the same identifier. -/
def reqB : Request :=
  { reqA with ts := "20250101-120001" }

theorem dedup_correct_witness :
    outResp id [reqA, reqB] [] 1 = some (dupResp "ORD-20250101-120000") := by
  have hgood : ∀ r ∈ [reqA, reqB], goodReq r := by
    intro r hr
    rw [List.mem_cons, List.mem_singleton] at hr
    rcases hr with rfl | rfl
    · exact ⟨rfl, rfl, by rfl, Elem.mk "Order" none
        [Elem.mk "OrderID" (some "ORD-20250101-120000") []], rfl⟩
    · exact ⟨rfl, rfl, by rfl, Elem.mk "Order" none
        [Elem.mk "OrderID" (some "ORD-20250101-120000") []], rfl⟩
  have h := dedup_correct id [reqA, reqB] hgood 1 reqB (by rfl)
  rw [h]
  rfl

/-- C2: for a parsed document, extraction probes the nine descendant
paths of `COMMON_XPATHS` in exactly that order and returns the stripped
text of the first probe yielding an element with non-blank text; when
every probe fails it returns the leftmost substring of the whole raw
decoded text matching the `(ORD|BULK|AUTO)-\d{8}-\d{6}` word-bounded
pattern; when that fails too, the identifier defaults to the sentinel
`UNKNOWN`. -/
theorem extraction_spec_order (root : Elem) (raw : String) :
    (∀ (i : Nat) (xp : String × List String) (v : String),
      COMMON_XPATHS[i]? = some xp → probeOne root xp = some v →
      (∀ j xq, j < i → COMMON_XPATHS[j]? = some xq → probeOne root xq = none) →
      extract_order_id root raw = some v) ∧
    ((∀ xp ∈ COMMON_XPATHS, probeOne root xp = none) →
      (∀ (i : Nat), matchesAt raw.data i = true →
        (∀ j < i, matchesAt raw.data j = false) →
        extract_order_id root raw = matchAt (raw.data.drop i)) ∧
      ((∀ i, matchesAt raw.data i = false) →
        (extract_order_id root raw).getD "UNKNOWN" = "UNKNOWN")) := by
  constructor
  · intro i xp v hi hv hprev
    have hpl := probeLoop_first root COMMON_XPATHS i xp v hi hv hprev
    simp [extract_order_id, hpl]
  · intro hnone
    have hpl := probeLoop_none root COMMON_XPATHS hnone
    have hext : extract_order_id root raw = patSearch raw := by
      simp [extract_order_id, hpl]
    constructor
    · intro i hi hmin
      rcases hs : searchFrom none raw.data with _ | s
      · have := searchFrom_none raw.data none hs i
        rw [matchesAt] at hi
        exact absurd hi (by simp [this])
      · obtain ⟨i0, hb0, hm0, hmin0⟩ := searchFrom_some raw.data none s hs
        have hii : i = i0 := by
          rcases Nat.lt_trichotomy i i0 with hlt | heq | hgt
          · have := hmin0 i hlt
            rw [matchesAt] at hi
            exact absurd hi (by simp [this])
          · exact heq
          · have := hmin i0 hgt
            rw [matchesAt] at this
            exact absurd this (by simp [hb0, hm0])
        subst hii
        rw [hext, patSearch, hs, hm0]
    · intro hall
      rcases hs : searchFrom none raw.data with _ | s
      · rw [hext, patSearch, hs]
        rfl
      · obtain ⟨i0, hb0, hm0, -⟩ := searchFrom_some raw.data none s hs
        have := hall i0
        rw [matchesAt] at this
        exact absurd this (by simp [hb0, hm0])

/-- A document without any of the probed tags. -/
def exND : Elem := Elem.mk "Payload" (some "junk") []

/-- Raw text whose leftmost pattern hit is at position 3. -/
def exRaw2 : String := "xx ORD-20250101-120000 and BULK-20250101-130000"

theorem extraction_spec_order_witness :
    extract_order_id exND exRaw2 = some "ORD-20250101-120000" := by
  have h := ((extraction_spec_order exND exRaw2).2 (by decide)).1 3 (by decide) (by decide)
  rw [h]
  rfl

/-- A GET request to the endpoint path. -/
def reqGET : Request :=
  { method := "GET", path := "/boomi/orders", headers := [],
    body := PostBody.mk "ignored" (.failure "ignored"),
    ts := "20250101-120000", client := "127.0.0.1" }

/-- C3 counterexample: the handler class defines only `do_POST`, so a GET
request is answered by the base class with a 501 error page, not with the
claimed `404 {"error": ...}` JSON response. -/
theorem routing_get_counterexample :
    handleRequest id [] reqGET = .ok ([Event.respond unsupportedResp], []) ∧
    unsupportedResp.code ≠ 404 ∧ unsupportedResp.jsonBody = none := by
  refine ⟨by rfl, by decide, rfl⟩

/-- C3 amended: a POST to any path other than the endpoint is answered
`404 {"error": "Not found: <path>"}` with no file writes and an unchanged
dedup state; a request with any non-POST method is answered by the HTTP
base class with a 501 error page, likewise with no file writes and an
unchanged dedup state — in both cases independently of the body. -/
theorem routing_amended (pp : String → String) (seen : List String) (r : Request) :
    (r.method = "POST" → r.path ≠ ENDPOINT →
      handleRequest pp seen r = .ok ([Event.respond (notFoundResp r.path)], seen)) ∧
    (r.method ≠ "POST" →
      handleRequest pp seen r = .ok ([Event.respond unsupportedResp], seen)) := by
  constructor
  · intro hm hp
    simp [handleRequest, if_pos hm, do_POST, hp]
  · intro hm
    simp [handleRequest, hm]

/-- A POST request with a wrong path and a body full of identifiers. -/
def reqWrongPath : Request :=
  { method := "POST", path := "/boomi/orders/v2",
    headers := [("Content-Length", "53")],
    body := PostBody.mk "<Order><OrderID>ORD-20250101-120000</OrderID></Order>"
      (.success (Elem.mk "Order" none [Elem.mk "OrderID" (some "ORD-20250101-120000") []])),
    ts := "20250101-120000", client := "127.0.0.1" }

theorem routing_amended_witness :
    handleRequest id [] reqWrongPath =
      .ok ([Event.respond (notFoundResp "/boomi/orders/v2")], []) :=
  (routing_amended id [] reqWrongPath).1 rfl (by decide)

/-- C4: a POST to the endpoint whose body fails the XML parse is answered
`400 {"status": "error", "reason": "malformed_xml", "detail": <message>}`;
the raw payload is persisted unmodified as `<ts>_malformed.xml` together
with `<ts>_malformed.meta.json` (status 400, reason `malformed_xml`, no
`order_id` key), the dedup state is untouched, and the remainder of any
run is exactly what it would have been without this submission — even
when the raw text contains a pattern-matching identifier. -/
theorem malformed_isolation (pp : String → String) (seen : List String) (r : Request)
    (msg : String) (hm : r.method = "POST") (hp : r.path = ENDPOINT)
    (hcl : (pyInt (clHeader r)).isSome = true)
    (hx : r.body.parsed = ParseOutcome.failure msg) :
    handleRequest pp seen r = .ok (malformedTrace r msg, seen) ∧
    malformedTrace r msg =
      [Event.write (r.ts ++ "_malformed.xml") (.textDoc r.body.raw),
       Event.write (r.ts ++ "_malformed.meta.json") (.meta (malformedMeta r)),
       Event.respond (malformedResp msg)] ∧
    "order_id" ∉ (malformedMeta r).map Prod.fst ∧
    ∀ rs : List Request, runAll pp (r :: rs) seen =
      (.ok (malformedTrace r msg) :: (runAll pp rs seen).1, (runAll pp rs seen).2) := by
  obtain ⟨v, hv⟩ := Option.isSome_iff_exists.mp hcl
  have hE : handleRequest pp seen r = .ok (malformedTrace r msg, seen) := by
    simp [handleRequest, if_pos hm, do_POST, hp, hv, hx, malformedTrace]
  refine ⟨hE, rfl, by simp [malformedMeta], fun rs => ?_⟩
  exact runAll_cons_ok pp r rs seen (malformedTrace r msg) seen hE

/-- A malformed submission whose raw text contains a pattern identifier. -/
def reqMal : Request :=
  { method := "POST", path := "/boomi/orders", headers := [],
    body := PostBody.mk "<Order><OrderID>ORD-20250101-120000</OrderID>"
      (.failure "no element found: line 1, column 45"),
    ts := "20250101-120002", client := "127.0.0.1" }

theorem malformed_isolation_witness :
    handleRequest id [] reqMal =
      .ok (malformedTrace reqMal "no element found: line 1, column 45", []) ∧
    "order_id" ∉ (malformedMeta reqMal).map Prod.fst := by
  have h := malformed_isolation id [] reqMal "no element found: line 1, column 45"
    rfl rfl (by rfl) rfl
  exact ⟨h.1, h.2.2.1⟩

/-- C5: a well-formed submission from which no identifier can be
extracted is answered `200 {"status": "ok", "order_id": "UNKNOWN"}`, and
the sentinel is never inserted into the dedup state, so unidentifiable
submissions are never answered 409, however often they repeat. -/
theorem unknown_sentinel (pp : String → String) (reqs : List Request)
    (h : ∀ r ∈ reqs, goodReq r) (k : Nat) (r : Request)
    (hk : reqs[k]? = some r) (hx : extractOf r = none) :
    outResp pp reqs [] k = some (okResp "UNKNOWN") ∧
    "UNKNOWN" ∉ (runAll pp reqs []).2 := by
  constructor
  · rw [runAll_resp_good pp reqs h [] k r hk]
    have hid : docId r = "UNKNOWN" := by simp [docId, hx]
    rw [hid]
    simp [stepResp]
  · intro hmem
    rcases (runAll_mem pp reqs [] "UNKNOWN").mp hmem with h0 | ⟨hne, -⟩
    · exact absurd h0 (by simp)
    · exact hne rfl

/-- A well-formed submission with no extractable identifier anywhere. -/
def reqU : Request :=
  { method := "POST", path := "/boomi/orders", headers := [("Content-Length", "26")],
    body := PostBody.mk "<Order><Note>hi</Note></Order>"
      (.success (Elem.mk "Order" none [Elem.mk "Note" (some "hi") []])),
    ts := "20250101-120003", client := "127.0.0.1" }

theorem unknown_sentinel_witness :
    outResp id [reqU, reqU] [] 1 = some (okResp "UNKNOWN") ∧
    "UNKNOWN" ∉ (runAll id [reqU, reqU] []).2 := by
  have hgood : ∀ r ∈ [reqU, reqU], goodReq r := by
    intro r hr
    rw [List.mem_cons, List.mem_singleton] at hr
    rcases hr with rfl | rfl <;>
      exact ⟨rfl, rfl, by rfl, Elem.mk "Order" none [Elem.mk "Note" (some "hi") []], rfl⟩
  exact unknown_sentinel id [reqU, reqU] hgood 1 reqU (by rfl) (by rfl)

/-- A POST with a non-numeric Content-Length header. -/
def reqBadCL : Request :=
  { method := "POST", path := "/boomi/orders", headers := [("Content-Length", "abc")],
    body := PostBody.mk "<Order></Order>" (.success (Elem.mk "Order" none [])),
    ts := "20250101-120005", client := "127.0.0.1" }

/-- A POST with no Content-Length header at all (read as zero bytes, so
the XML parse fails). -/
def reqNoCL : Request :=
  { method := "POST", path := "/boomi/orders", headers := [],
    body := PostBody.mk "" (.failure "no element found: line 1, column 0"),
    ts := "20250101-120006", client := "127.0.0.1" }

/-- C6 (code bug): `int(self.headers.get("Content-Length", "0"))` only
defaults a missing header to zero; a present but non-numeric value makes
`int()` raise `ValueError` out of the handler, so no response is written
— contrary to the specified treat-as-zero behaviour.  An absent header
does proceed to (and fail at) XML parsing with a 400 response. -/
theorem content_length_crash :
    handleRequest id [] reqBadCL = .error PyError.valueError ∧
    handleRequest id [] reqNoCL =
      .ok (malformedTrace reqNoCL "no element found: line 1, column 0", []) :=
  ⟨by rfl, by rfl⟩

/-- C7: a well-formed submission — also one rejected as a duplicate —
has both its XML artifact and its metadata file written before the
response event, the response is 200 or 409, and on the duplicate path
the metadata records status 409. -/
theorem persist_before_response (pp : String → String) (seen : List String)
    (r : Request) (h : goodReq r) :
    ∃ m resp,
      handleRequest pp seen r = .ok
        ([Event.write (r.ts ++ "_" ++ docId r ++ ".xml") (.textDoc (pp r.body.raw)),
          Event.write (r.ts ++ "_" ++ docId r ++ ".meta.json") (.meta m),
          Event.respond resp], stepSeen seen (docId r)) ∧
      (resp = okResp (docId r) ∨ resp = dupResp (docId r)) ∧
      (resp = dupResp (docId r) → ("status", MVal.nat 409) ∈ m) := by
  refine ⟨acceptMeta r (if docId r ∈ seen then 409 else 200) (docId r),
    stepResp seen (docId r), ?_, ?_, ?_⟩
  · have hE := handle_good pp seen r h
    simpa [acceptTrace] using hE
  · unfold stepResp
    by_cases hd : docId r ∈ seen ∧ docId r ≠ "UNKNOWN"
    · rw [if_pos hd]; exact Or.inr rfl
    · rw [if_neg hd]; exact Or.inl rfl
  · intro hresp
    unfold stepResp at hresp
    by_cases hd : docId r ∈ seen ∧ docId r ≠ "UNKNOWN"
    · rw [if_pos hd.1]
      simp [acceptMeta]
    · rw [if_neg hd] at hresp
      exact absurd hresp (by simp [okResp, dupResp])

theorem persist_before_response_witness :
    ∃ m resp,
      handleRequest id ["ORD-20250101-120000"] reqA = .ok
        ([Event.write (reqA.ts ++ "_" ++ docId reqA ++ ".xml")
            (.textDoc (id reqA.body.raw)),
          Event.write (reqA.ts ++ "_" ++ docId reqA ++ ".meta.json") (.meta m),
          Event.respond resp], stepSeen ["ORD-20250101-120000"] (docId reqA)) ∧
      (resp = okResp (docId reqA) ∨ resp = dupResp (docId reqA)) ∧
      (resp = dupResp (docId reqA) → ("status", MVal.nat 409) ∈ m) :=
  persist_before_response id ["ORD-20250101-120000"] reqA
    ⟨rfl, rfl, by rfl,
      Elem.mk "Order" none [Elem.mk "OrderID" (some "ORD-20250101-120000") []], rfl⟩

/-- C8: the dedup state only grows — no request removes an element — and
over any run from the empty initial state, a non-sentinel identifier is a
member exactly when some prior submission extracted it and was answered
`200 ok` (that is, was processed and not itself rejected as a duplicate);
the sentinel `UNKNOWN` is never a member. -/
theorem seen_invariant (pp : String → String) (reqs : List Request) :
    (∀ (seen : List String) (y : String), y ∈ seen → y ∈ (runAll pp reqs seen).2) ∧
    (∀ y : String, y ≠ "UNKNOWN" →
      (y ∈ (runAll pp reqs []).2 ↔
        ∃ k r, reqs[k]? = some r ∧ extractOf r = some y ∧
          outResp pp reqs [] k = some (okResp y))) ∧
    "UNKNOWN" ∉ (runAll pp reqs []).2 := by
  refine ⟨runAll_mono pp reqs, ?_, ?_⟩
  · intro y hne
    rw [runAll_mem pp reqs []]
    simp only [List.not_mem_nil, false_or]
    constructor
    · rintro ⟨-, k, hk⟩
      obtain ⟨r, hr, hd⟩ := outResp_ok_source pp reqs [] k y hk
      refine ⟨k, r, hr, ?_, hk⟩
      rcases hext : extractOf r with _ | v
      · simp [docId, hext] at hd
        exact absurd hd.symm hne
      · simp [docId, hext] at hd
        rw [hd]
    · rintro ⟨k, r, -, -, hk⟩
      exact ⟨hne, k, hk⟩
  · intro hmem
    rcases (runAll_mem pp reqs [] "UNKNOWN").mp hmem with h0 | ⟨hne, -⟩
    · exact absurd h0 (by simp)
    · exact hne rfl

theorem seen_invariant_witness :
    "ORD-20250101-120000" ∈ (runAll id [reqA] []).2 :=
  ((seen_invariant id [reqA]).2.1 "ORD-20250101-120000" (by decide)).mpr
    ⟨0, reqA, rfl, by rfl, by rfl⟩

/-- The structural-probe part of extraction applied to a request. -/
def probeOf (r : Request) : Option String :=
  match r.body.parsed with
  | .success root => probeLoop root COMMON_XPATHS
  | .failure _ => none

theorem probeOf_extract (r : Request) (v : String) (h : probeOf r = some v) :
    extractOf r = some v := by
  unfold probeOf at h
  unfold extractOf
  cases hps : r.body.parsed with
  | failure msg => rw [hps] at h; exact absurd h (by simp)
  | success root =>
    rw [hps] at h
    have h2 : probeLoop root COMMON_XPATHS = some v := h
    simp [extract_order_id, h2]

/-- C9: a well-formed document whose structural probe returns the literal
text `UNKNOWN` behaves exactly like one with no extractable identifier:
always answered `200 ok` with order id `UNKNOWN`, never inserted into the
dedup state, never answered 409 on repeats — although the structural
lookup nominally accepts any non-blank text, as the example document
`<Order><OrderID>UNKNOWN</OrderID></Order>` shows. -/
theorem literal_unknown_text (pp : String → String) (reqs : List Request)
    (h : ∀ r ∈ reqs, goodReq r) (k : Nat) (r : Request)
    (hk : reqs[k]? = some r) (hx : probeOf r = some "UNKNOWN") :
    outResp pp reqs [] k = some (okResp "UNKNOWN") ∧
    "UNKNOWN" ∉ (runAll pp reqs []).2 ∧
    extract_order_id (Elem.mk "Order" none [Elem.mk "OrderID" (some "UNKNOWN") []]) "x" =
      some "UNKNOWN" := by
  have hid : docId r = "UNKNOWN" := by
    simp [docId, probeOf_extract r _ hx]
  refine ⟨?_, ?_, by rfl⟩
  · rw [runAll_resp_good pp reqs h [] k r hk, hid]
    simp [stepResp]
  · intro hmem
    rcases (runAll_mem pp reqs [] "UNKNOWN").mp hmem with h0 | ⟨hne, -⟩
    · exact absurd h0 (by simp)
    · exact hne rfl

/-- A submission carrying the literal text UNKNOWN in its OrderID tag. -/
def reqU9 : Request :=
  { method := "POST", path := "/boomi/orders", headers := [],
    body := PostBody.mk "<Order><OrderID>UNKNOWN</OrderID></Order>"
      (.success (Elem.mk "Order" none [Elem.mk "OrderID" (some "UNKNOWN") []])),
    ts := "20250101-120004", client := "127.0.0.1" }

theorem literal_unknown_text_witness :
    outResp id [reqU9, reqU9] [] 1 = some (okResp "UNKNOWN") ∧
    "UNKNOWN" ∉ (runAll id [reqU9, reqU9] []).2 := by
  have hgood : ∀ r ∈ [reqU9, reqU9], goodReq r := by
    intro r hr
    rw [List.mem_cons, List.mem_singleton] at hr
    rcases hr with rfl | rfl <;>
      exact ⟨rfl, rfl, by rfl,
        Elem.mk "Order" none [Elem.mk "OrderID" (some "UNKNOWN") []], rfl⟩
  have h := literal_unknown_text id [reqU9, reqU9] hgood 1 reqU9 (by rfl) (by rfl)
  exact ⟨h.1, h.2.1⟩

/-- C10: each structural probe looks only at the first match of its path
in the document: when that first element's text is missing or blank, the
probe fails for the whole path — whatever later matches of the same path
carry — and the loop moves on to the remaining probes (and ultimately the
regex fallback). -/
theorem probe_first_only (root : Elem) (xp : String × List String) (e : Elem)
    (rest : List Elem) (h1 : findAll root xp = e :: rest)
    (h2 : ∀ s, e.text = some s → pyStrip s = "") :
    probeOne root xp = none ∧
    ∀ xps, probeLoop root (xp :: xps) = probeLoop root xps := by
  have hp : probeOne root xp = none := by
    unfold probeOne findPath
    rw [h1]
    simp only [List.head?_cons]
    cases hte : e.text with
    | none => rfl
    | some s => simp [h2 s hte]
  exact ⟨hp, fun xps => by simp [probeLoop, hp]⟩

/-- A document with two OrderID descendants: the first blank, the second
carrying an identifier. -/
def exDouble : Elem :=
  Elem.mk "Order" none [Elem.mk "OrderID" (some "  ") [],
    Elem.mk "OrderID" (some "ORD-20250101-120000") []]

theorem probe_first_only_witness :
    probeOne exDouble ("OrderID", []) = none ∧
    probeLoop exDouble [("OrderID", [])] = probeLoop exDouble [] := by
  have h := probe_first_only exDouble ("OrderID", [])
    (Elem.mk "OrderID" (some "  ") []) [Elem.mk "OrderID" (some "ORD-20250101-120000") []]
    (by rfl) (fun s hs => by cases hs; rfl)
  exact ⟨h.1, h.2 []⟩
